import Mathlib

/-!
Shallow embedding of `src/shell.rs` from slint-ui/cross: the console-output
abstraction (verbosity and color resolution, the `MessageInfo` reporter and
its emission methods, erase-line bookkeeping, and the `indent` helper).

Writes to the two process streams are modelled as lists of `Chunk`s appended
per call: a plain write, a styled write (ANSI styling applied), or the raw
"Erase in Line" control sequence `\x1B[K` written by `erase_line`.  The
runtime question "does this stream support color right now" (queried by the
`Auto` color mode per call) is an explicit `Bool` parameter.  I/O failures of
the underlying OS writes are environmental and not modelled: every modelled
write succeeds, so a method "returns success" whenever it does not diverge.
-/

/-- The requested verbosity of output (`enum Verbosity`). -/
inductive Verbosity where
  | Quiet
  | Normal
  | Verbose
deriving DecidableEq

/-- Whether messages should use color output (`enum ColorChoice`). -/
inductive ColorChoice where
  | Always
  | Never
  | Auto
deriving DecidableEq

/-- The ANSI styles the module applies via `owo_colors`. -/
inductive Style where
  | bold
  | red
  | yellow
  | cyan
  | green
deriving DecidableEq

/-- One write to a stream: plain bytes, styled bytes, or the raw
"Erase in Line" sequence `\x1B[K` emitted by `erase_line`. -/
inductive Chunk where
  | text (s : String)
  | styled (s : String) (styles : List Style)
  | erase
deriving DecidableEq

/-- The textual content of a chunk: for a plain or styled chunk its payload
(escape bytes of styling abstracted away), for the erase chunk the literal
control-sequence bytes. -/
def Chunk.render : Chunk → String
  | .text s => s
  | .styled s _ => s
  | .erase => "\x1B[K"

/-- A chunk is plain when it carries no ANSI styling and is not a control
sequence. -/
def Chunk.plain : Chunk → Bool
  | .text _ => true
  | _ => false

/-- Concatenated content of a list of chunks. -/
def chunksText (cs : List Chunk) : String :=
  String.join (cs.map Chunk.render)

/-- `write_style!`: `Always` applies the styles unconditionally, `Never`
writes plain, `Auto` applies them iff the destination stream supports color
at the moment of the call.  A write with no styles is plain in every mode. -/
def writeStyle (cc : ColorChoice) (sup : Bool) (msg : String)
    (styles : List Style) : Chunk :=
  match cc with
  | .Always => if styles.isEmpty then .text msg else .styled msg styles
  | .Never => .text msg
  | .Auto =>
      if styles.isEmpty then .text msg
      else if sup then .styled msg styles else .text msg

/-- `cross_prefix!`: prefixes a status label with the fixed tool tag. -/
def crossTag (s : String) : String :=
  "[cross]" ++ " " ++ s

/-- `Verbosity::verbose`. -/
def Verbosity.verbose : Verbosity → Bool
  | .Verbose => true
  | .Normal => false
  | .Quiet => false

/-- `struct MessageInfo`. -/
structure MessageInfo where
  color_choice : ColorChoice
  verbosity : Verbosity
  stdout_needs_erase : Bool
  stderr_needs_erase : Bool
deriving DecidableEq

/-- `MessageInfo::new`. -/
def MessageInfo.new (color_choice : ColorChoice) (verbosity : Verbosity) :
    MessageInfo :=
  { color_choice := color_choice
    verbosity := verbosity
    stdout_needs_erase := false
    stderr_needs_erase := false }

/-- `impl Default for MessageInfo`. -/
def MessageInfo.defaultInfo : MessageInfo :=
  MessageInfo.new .Auto .Normal

/-- `impl From<ColorChoice> for MessageInfo`. -/
def MessageInfo.fromColorChoice (cc : ColorChoice) : MessageInfo :=
  MessageInfo.new cc .Normal

/-- `impl From<Verbosity> for MessageInfo`. -/
def MessageInfo.fromVerbosity (v : Verbosity) : MessageInfo :=
  MessageInfo.new .Auto v

/-- `impl From<(ColorChoice, Verbosity)> for MessageInfo`. -/
def MessageInfo.fromPair (p : ColorChoice × Verbosity) : MessageInfo :=
  MessageInfo.new p.1 p.2

/-- `MessageInfo::is_verbose`. -/
def MessageInfo.is_verbose (mi : MessageInfo) : Bool :=
  mi.verbosity.verbose

/-- The result of one emission call: the updated reporter plus the chunks the
call appended to stdout and to stderr. -/
structure Emit where
  info : MessageInfo
  out : List Chunk
  err : List Chunk
deriving DecidableEq

/-- `MessageInfo::erase_line`: the bytes it writes to the given stream. -/
def erase_line : List Chunk := [Chunk.erase]

/-- `MessageInfo::stdout_check_erase`. -/
def MessageInfo.stdout_check_erase (mi : MessageInfo) :
    MessageInfo × List Chunk :=
  if mi.stdout_needs_erase then
    ({ mi with stdout_needs_erase := false }, erase_line)
  else (mi, [])

/-- `MessageInfo::stderr_check_erase`. -/
def MessageInfo.stderr_check_erase (mi : MessageInfo) :
    MessageInfo × List Chunk :=
  if mi.stderr_needs_erase then
    ({ mi with stderr_needs_erase := false }, erase_line)
  else (mi, [])

/-- `message!(@status ...)`: bold+colored label, bold colon, then either
`" <message>\n"` or, with no body, a single `" "` with no newline. -/
def messageStatus (cc : ColorChoice) (sup : Bool) (label : String)
    (message : Option String) (color : Style) : List Chunk :=
  [writeStyle cc sup label [.bold, color], writeStyle cc sup ":" [.bold]] ++
    (match message with
     | some m => [Chunk.text (" " ++ m ++ "\n")]
     | none => [Chunk.text " "])

/-- `MessageInfo::error`: stderr, red label, erase-checked, never
suppressed. -/
def MessageInfo.error (mi : MessageInfo) (sup : Bool) (message : String) :
    Emit :=
  let r := mi.stderr_check_erase
  ⟨r.1, [],
    r.2 ++ messageStatus r.1.color_choice sup (crossTag "error")
      (some message) .red⟩

/-- `MessageInfo::warn`: stderr, yellow label, suppressed at `Quiet`. -/
def MessageInfo.warn (mi : MessageInfo) (sup : Bool) (message : String) :
    Emit :=
  match mi.verbosity with
  | .Quiet => ⟨mi, [], []⟩
  | _ =>
      ⟨mi, [],
        messageStatus mi.color_choice sup (crossTag "warning")
          (some message) .yellow⟩

/-- `MessageInfo::note`: stderr, cyan label, suppressed at `Quiet`. -/
def MessageInfo.note (mi : MessageInfo) (sup : Bool) (message : String) :
    Emit :=
  match mi.verbosity with
  | .Quiet => ⟨mi, [], []⟩
  | _ =>
      ⟨mi, [],
        messageStatus mi.color_choice sup (crossTag "note")
          (some message) .cyan⟩

/-- `MessageInfo::status`: plain `eprintln!` line, suppressed at `Quiet`. -/
def MessageInfo.status (mi : MessageInfo) (message : String) : Emit :=
  match mi.verbosity with
  | .Quiet => ⟨mi, [], []⟩
  | _ => ⟨mi, [], [Chunk.text (message ++ "\n")]⟩

/-- `MessageInfo::print`: stdout, erase-checked, never suppressed. -/
def MessageInfo.print (mi : MessageInfo) (message : String) : Emit :=
  let r := mi.stdout_check_erase
  ⟨r.1, r.2 ++ [Chunk.text (message ++ "\n")], []⟩

/-- `MessageInfo::info`: plain `println!` line, suppressed at `Quiet`. -/
def MessageInfo.info (mi : MessageInfo) (message : String) : Emit :=
  match mi.verbosity with
  | .Quiet => ⟨mi, [], []⟩
  | _ => ⟨mi, [Chunk.text (message ++ "\n")], []⟩

/-- `MessageInfo::debug`: plain `println!` line, suppressed at `Quiet` and
`Normal`. -/
def MessageInfo.debug (mi : MessageInfo) (message : String) : Emit :=
  match mi.verbosity with
  | .Quiet => ⟨mi, [], []⟩
  | .Normal => ⟨mi, [], []⟩
  | .Verbose => ⟨mi, [Chunk.text (message ++ "\n")], []⟩

/-- `MessageInfo::error_usage`: the multi-line usage block on stderr. -/
def MessageInfo.error_usage (mi : MessageInfo) (sup : Bool) (arg : String) :
    Emit :=
  ⟨mi, [],
    [writeStyle mi.color_choice sup (crossTag "error") [.bold, .red],
     writeStyle mi.color_choice sup ":" [.bold],
     writeStyle mi.color_choice sup " The argument '" [],
     writeStyle mi.color_choice sup arg [.yellow],
     writeStyle mi.color_choice sup
       "' requires a value but none was supplied\n" [],
     writeStyle mi.color_choice sup "Usage:\n" [],
     writeStyle mi.color_choice sup
       "    cross [+toolchain] [OPTIONS] [SUBCOMMAND]\n" [],
     writeStyle mi.color_choice sup "\n" [],
     writeStyle mi.color_choice sup "For more information try " [],
     writeStyle mi.color_choice sup "--help" [.green],
     writeStyle mi.color_choice sup "\n" []]⟩

/-- `MessageInfo::fatal`: the error output it emits and the exit status it
terminates the process with. -/
def MessageInfo.fatal (mi : MessageInfo) (sup : Bool) (message : String)
    (code : Int) : Emit × Int :=
  (mi.error sup message, code)

/-- `MessageInfo::fatal_usage`: the usage block it emits and the exit
status it terminates the process with. -/
def MessageInfo.fatal_usage (mi : MessageInfo) (sup : Bool) (arg : String)
    (code : Int) : Emit × Int :=
  (mi.error_usage sup arg, code)

/-- `get_color_choice`: resolves the optional `--color` argument. -/
def get_color_choice : Option String → Except String ColorChoice
  | some "always" => .ok .Always
  | some "never" => .ok .Never
  | some "auto" => .ok .Auto
  | none => .ok .Auto
  | some arg =>
      .error ("argument for --color must be auto, always, or never, but found `"
        ++ arg ++ "`")

/-- Outcome of `get_verbosity`: a verbosity, or process termination with the
stderr bytes emitted on the way out. -/
inductive GetVerbosityResult where
  | ok (v : Verbosity)
  | exitWith (errOutput : List Chunk) (code : Int)
deriving DecidableEq

/-- `get_verbosity`: resolves `--verbose`/`--quiet`; on the conflicting pair
it reports through `MessageInfo::from(color_choice)` and exits 101. -/
def get_verbosity (sup : Bool) (color_choice : ColorChoice)
    (verbose quiet : Bool) : GetVerbosityResult :=
  match verbose, quiet with
  | true, true =>
      let e := (MessageInfo.fromColorChoice color_choice).error sup
        "cannot set both --verbose and --quiet"
      .exitWith e.err 101
  | true, false => .ok .Verbose
  | false, true => .ok .Quiet
  | false, false => .ok .Normal

/-- Outcome of `MessageInfo::create`: a reporter, a recoverable argument
error, or process termination inherited from `get_verbosity`. -/
inductive CreateResult where
  | ok (mi : MessageInfo)
  | err (msg : String)
  | exitWith (errOutput : List Chunk) (code : Int)
deriving DecidableEq

/-- `MessageInfo::create`. -/
def MessageInfo.create (sup : Bool) (verbose quiet : Bool)
    (color : Option String) : CreateResult :=
  match get_color_choice color with
  | .error e => .err e
  | .ok cc =>
      match get_verbosity sup cc verbose quiet with
      | .exitWith out code => .exitWith out code
      | .ok v =>
          .ok { color_choice := cc, verbosity := v,
                stdout_needs_erase := false, stderr_needs_erase := false }

/-- `str::split_inclusive('\n')`: splits into segments each ending with the
separator, the final segment possibly without it; the empty string yields no
segments. -/
def splitIncl : List Char → List (List Char)
  | [] => []
  | c :: cs =>
    if c = '\n' then ['\n'] :: splitIncl cs
    else
      match splitIncl cs with
      | [] => [[c]]
      | g :: gs => (c :: g) :: gs

/-- The per-line map of `str::lines`: strip one trailing `'\n'` and, only if
one was stripped, one trailing `'\r'` before it. -/
def stripLineEnding (g : List Char) : List Char :=
  if g.getLast? = some '\n' then
    if g.dropLast.getLast? = some '\r' then g.dropLast.dropLast
    else g.dropLast
  else g

/-- `str::lines`. -/
def rustLines (s : String) : List String :=
  (splitIncl s.data).map fun g => String.mk (stripLineEnding g)

/-- `indent`: each line padded on the left with `spaces` spaces, the results
concatenated with no separator (`collect::<String>`). -/
def indent (message : String) (spaces : Nat) : String :=
  String.join ((rustLines message).map
    fun l => String.mk (List.replicate spaces ' ') ++ l)

theorem data_stringAppend (a b : String) : (a ++ b).data = a.data ++ b.data :=
  rfl

theorem data_stringJoin (l : List String) :
    (String.join l).data = (l.map String.data).flatten := by
  suffices h : ∀ (l : List String) (acc : String),
      (l.foldl (· ++ ·) acc).data = acc.data ++ (l.map String.data).flatten by
    rw [show String.join l = l.foldl (· ++ ·) "" from rfl, h l ""]
    rfl
  intro l
  induction l with
  | nil => intro acc; simp [List.foldl]
  | cons a t ih =>
      intro acc
      simp [List.foldl, ih, data_stringAppend]

theorem dropLast_groups_no_newline (cs : List Char) :
    ∀ g ∈ splitIncl cs, '\n' ∉ g.dropLast := by
  induction cs with
  | nil => intro g hg; simp [splitIncl] at hg
  | cons c t ih =>
      intro g hg
      by_cases hc : c = '\n'
      · rw [splitIncl, if_pos hc] at hg
        rcases List.mem_cons.mp hg with hg | hg
        · subst hg; simp
        · exact ih g hg
      · rw [splitIncl, if_neg hc] at hg
        rcases hs : splitIncl t with _ | ⟨g0, gs⟩
        · rw [hs] at hg
          rcases List.mem_cons.mp hg with hg | hg
          · subst hg; simp
          · simp at hg
        · rw [hs] at hg
          rcases List.mem_cons.mp hg with hg | hg
          · subst hg
            cases g0 with
            | nil => simp
            | cons a g1 =>
                rw [List.dropLast_cons₂]
                intro hmem
                rcases List.mem_cons.mp hmem with h | h
                · exact hc h.symm
                · exact ih (a :: g1) (by rw [hs]; exact List.mem_cons_self _ _) h
          · exact ih g (by rw [hs]; exact List.mem_cons_of_mem _ hg)

theorem stripLineEnding_no_newline (g : List Char)
    (h : '\n' ∉ g.dropLast) : '\n' ∉ stripLineEnding g := by
  unfold stripLineEnding
  split
  · split
    · intro hmem
      exact h (List.dropLast_subset _ hmem)
    · exact h
  · rename_i hlast
    rcases List.eq_nil_or_concat g with rfl | ⟨l, b, rfl⟩
    · simp
    · rw [List.concat_eq_append] at h ⊢
      intro hmem
      rcases List.mem_append.mp hmem with hm | hm
      · exact h (by simpa using hm)
      · apply hlast
        simp at hm
        subst hm
        simp [List.concat_eq_append]

theorem data_mk (l : List Char) : (String.mk l).data = l := rfl

theorem text_ne_erase (s : String) : Chunk.text s ≠ Chunk.erase :=
  fun h => Chunk.noConfusion h

theorem styled_ne_erase (s : String) (ss : List Style) :
    Chunk.styled s ss ≠ Chunk.erase :=
  fun h => Chunk.noConfusion h

theorem writeStyle_ne_erase (cc : ColorChoice) (sup : Bool) (msg : String)
    (styles : List Style) : writeStyle cc sup msg styles ≠ Chunk.erase := by
  cases cc <;> dsimp [writeStyle] <;> (repeat' split) <;>
    first
      | exact text_ne_erase _
      | exact styled_ne_erase _ _

theorem erase_ne_writeStyle (cc : ColorChoice) (sup : Bool) (msg : String)
    (styles : List Style) : Chunk.erase ≠ writeStyle cc sup msg styles :=
  fun h => writeStyle_ne_erase cc sup msg styles h.symm

theorem erase_not_mem_messageStatus (cc : ColorChoice) (sup : Bool)
    (label : String) (message : Option String) (color : Style) :
    Chunk.erase ∉ messageStatus cc sup label message color := by
  rcases message with _ | m <;>
    simp [messageStatus, erase_ne_writeStyle]

theorem render_writeStyle (cc : ColorChoice) (sup : Bool) (msg : String)
    (styles : List Style) : (writeStyle cc sup msg styles).render = msg := by
  cases cc <;> dsimp [writeStyle] <;> (repeat' split) <;> rfl

/-- C1: for every pair `(verbose, quiet)` other than `(true, true)`,
`get_verbosity` deterministically returns `Verbose`, `Quiet`, and `Normal`
respectively, regardless of the color mode (and of stream capability). -/
theorem get_verbosity_non_conflicting (cc : ColorChoice) (sup : Bool) :
    get_verbosity sup cc true false = .ok .Verbose ∧
    get_verbosity sup cc false true = .ok .Quiet ∧
    get_verbosity sup cc false false = .ok .Normal :=
  ⟨rfl, rfl, rfl⟩

/-- C5: `get_color_choice` maps `None`, `Some "always"`, `Some "never"`,
`Some "auto"` to `Auto`, `Always`, `Never`, `Auto` respectively, and fails
with an invalid-argument error on every other string (case-sensitive; the
empty string included). -/
theorem get_color_choice_spec :
    (get_color_choice none = .ok .Auto ∧
     get_color_choice (some "always") = .ok .Always ∧
     get_color_choice (some "never") = .ok .Never ∧
     get_color_choice (some "auto") = .ok .Auto) ∧
    ∀ s : String, s ≠ "always" → s ≠ "never" → s ≠ "auto" →
      ∃ e, get_color_choice (some s) = .error e := by
  refine ⟨⟨rfl, rfl, rfl, rfl⟩, ?_⟩
  intro s h1 h2 h3
  unfold get_color_choice
  split
  · rename_i heq
    injection heq with h
    exact absurd h h1
  · rename_i heq
    injection heq with h
    exact absurd h h2
  · rename_i heq
    injection heq with h
    exact absurd h h3
  · rename_i heq
    injection heq
  · exact ⟨_, rfl⟩

/-- Witness for C5: the empty string is rejected. -/
theorem get_color_choice_spec_witness :
    ∃ e, get_color_choice (some "") = .error e :=
  get_color_choice_spec.2 "" (by decide) (by decide) (by decide)

/-- C8: each `From` construction round-trips: reading back `color_choice`
and `verbosity` yields the supplied value(s), the unspecified half
defaulting to `Auto` / `Normal`. -/
theorem messageInfo_from_round_trip (cc : ColorChoice) (v : Verbosity) :
    (MessageInfo.fromColorChoice cc).color_choice = cc ∧
    (MessageInfo.fromColorChoice cc).verbosity = .Normal ∧
    (MessageInfo.fromVerbosity v).color_choice = .Auto ∧
    (MessageInfo.fromVerbosity v).verbosity = v ∧
    (MessageInfo.fromPair (cc, v)).color_choice = cc ∧
    (MessageInfo.fromPair (cc, v)).verbosity = v :=
  ⟨rfl, rfl, rfl, rfl, rfl, rfl⟩

/-- C4: on `verbose=true, quiet=true`, `get_verbosity` never returns a
verbosity: it emits, through a reporter built `From` the given color mode
(at default `Normal` verbosity), the red-labelled error naming both flags,
and terminates the process with exit status 101. -/
theorem get_verbosity_conflict_fatal (cc : ColorChoice) (sup : Bool) :
    get_verbosity sup cc true true =
      .exitWith ((MessageInfo.fromColorChoice cc).error sup
        "cannot set both --verbose and --quiet").err 101 ∧
    (∀ v, get_verbosity sup cc true true ≠ .ok v) ∧
    chunksText ((MessageInfo.fromColorChoice cc).error sup
      "cannot set both --verbose and --quiet").err =
      "[cross] error: cannot set both --verbose and --quiet\n" ∧
    ((MessageInfo.fromColorChoice cc).error sup
      "cannot set both --verbose and --quiet").err.head? =
      some (writeStyle cc sup (crossTag "error") [.bold, .red]) := by
  refine ⟨rfl, fun v h => GetVerbosityResult.noConfusion h, ?_, rfl⟩
  show chunksText (messageStatus cc sup (crossTag "error") (some _) .red) = _
  cases cc <;> cases sup <;>
    simp [chunksText, messageStatus, writeStyle, Chunk.render, crossTag,
      String.join]

/-- C6: with `ColorChoice::Never` and no pending stderr erase,
`error("disk full")` writes to stderr exactly
`"[cross] error: disk full\n"` — the tool tag, the label, a colon, a space,
the message and a newline — with no escape codes, at every verbosity. -/
theorem error_never_exact_bytes (v : Verbosity) (sup e1 : Bool) :
    ((⟨.Never, v, e1, false⟩ : MessageInfo).error sup "disk full").err =
      [Chunk.text "[cross] error", Chunk.text ":",
       Chunk.text " disk full\n"] ∧
    chunksText ((⟨.Never, v, e1, false⟩ : MessageInfo).error sup
      "disk full").err = "[cross]" ++ " " ++ "error" ++ ": " ++ "disk full"
        ++ "\n" ∧
    (((⟨.Never, v, e1, false⟩ : MessageInfo).error sup
      "disk full").err.all Chunk.plain) = true ∧
    ((⟨.Never, v, e1, false⟩ : MessageInfo).error sup "disk full").out =
      [] :=
  ⟨rfl, rfl, rfl, rfl⟩

/-- C7: at every verbosity (including `Quiet`), `print("result: 42")` with
the stdout erase flag set writes `"\x1B[K"` immediately followed by
`"result: 42\n"` to stdout and clears the flag; `print` is never suppressed
by verbosity. -/
theorem print_erase_then_write (cc : ColorChoice) (v : Verbosity)
    (e2 : Bool) :
    (⟨cc, v, true, e2⟩ : MessageInfo).print "result: 42" =
      ⟨⟨cc, v, false, e2⟩, [Chunk.erase, Chunk.text "result: 42\n"], []⟩ ∧
    chunksText ((⟨cc, v, true, e2⟩ : MessageInfo).print "result: 42").out =
      "\x1B[K" ++ "result: 42\n" :=
  ⟨rfl, rfl⟩

/-- C2: `Quiet` suppresses `warn`, `note`, `status`, `info` and `debug`
(state and both streams untouched); `debug` is additionally a no-op at
`Normal` and emits only at `Verbose`; `warn`, `note` and `status` emit at
`Normal` and `Verbose`; `error` and `print` emit even at `Quiet`. -/
theorem verbosity_suppression (cc : ColorChoice) (e1 e2 sup : Bool)
    (msg : String) :
    ((⟨cc, .Quiet, e1, e2⟩ : MessageInfo).warn sup msg =
      ⟨⟨cc, .Quiet, e1, e2⟩, [], []⟩) ∧
    ((⟨cc, .Quiet, e1, e2⟩ : MessageInfo).note sup msg =
      ⟨⟨cc, .Quiet, e1, e2⟩, [], []⟩) ∧
    ((⟨cc, .Quiet, e1, e2⟩ : MessageInfo).status msg =
      ⟨⟨cc, .Quiet, e1, e2⟩, [], []⟩) ∧
    ((⟨cc, .Quiet, e1, e2⟩ : MessageInfo).info msg =
      ⟨⟨cc, .Quiet, e1, e2⟩, [], []⟩) ∧
    ((⟨cc, .Quiet, e1, e2⟩ : MessageInfo).debug msg =
      ⟨⟨cc, .Quiet, e1, e2⟩, [], []⟩) ∧
    ((⟨cc, .Normal, e1, e2⟩ : MessageInfo).debug msg =
      ⟨⟨cc, .Normal, e1, e2⟩, [], []⟩) ∧
    ((⟨cc, .Verbose, e1, e2⟩ : MessageInfo).debug msg =
      ⟨⟨cc, .Verbose, e1, e2⟩, [Chunk.text (msg ++ "\n")], []⟩) ∧
    ((⟨cc, .Normal, e1, e2⟩ : MessageInfo).warn sup msg).err ≠ [] ∧
    ((⟨cc, .Verbose, e1, e2⟩ : MessageInfo).warn sup msg).err ≠ [] ∧
    ((⟨cc, .Normal, e1, e2⟩ : MessageInfo).note sup msg).err ≠ [] ∧
    ((⟨cc, .Verbose, e1, e2⟩ : MessageInfo).note sup msg).err ≠ [] ∧
    ((⟨cc, .Normal, e1, e2⟩ : MessageInfo).status msg).err ≠ [] ∧
    ((⟨cc, .Verbose, e1, e2⟩ : MessageInfo).status msg).err ≠ [] ∧
    ((⟨cc, .Quiet, e1, e2⟩ : MessageInfo).error sup msg).err ≠ [] ∧
    ((⟨cc, .Quiet, e1, e2⟩ : MessageInfo).print msg).out ≠ [] := by
  refine ⟨rfl, rfl, rfl, rfl, rfl, rfl, rfl, ?_, ?_, ?_, ?_, ?_, ?_, ?_, ?_⟩
  all_goals
    simp [MessageInfo.warn, MessageInfo.note, MessageInfo.status,
      MessageInfo.error, MessageInfo.print, messageStatus,
      MessageInfo.stderr_check_erase, MessageInfo.stdout_check_erase]

theorem error_state (mi : MessageInfo) (sup : Bool) (msg : String) :
    (mi.error sup msg).info = { mi with stderr_needs_erase := false } := by
  rcases mi with ⟨a, b, c, d⟩
  cases d <;> rfl

theorem print_state (mi : MessageInfo) (msg : String) :
    (mi.print msg).info = { mi with stdout_needs_erase := false } := by
  rcases mi with ⟨a, b, c, d⟩
  cases c <;> rfl

theorem warn_state (mi : MessageInfo) (sup : Bool) (msg : String) :
    (mi.warn sup msg).info = mi := by
  rcases mi with ⟨a, b, c, d⟩
  cases b <;> rfl

theorem note_state (mi : MessageInfo) (sup : Bool) (msg : String) :
    (mi.note sup msg).info = mi := by
  rcases mi with ⟨a, b, c, d⟩
  cases b <;> rfl

theorem status_state (mi : MessageInfo) (msg : String) :
    (mi.status msg).info = mi := by
  rcases mi with ⟨a, b, c, d⟩
  cases b <;> rfl

theorem info_state (mi : MessageInfo) (msg : String) :
    (mi.info msg).info = mi := by
  rcases mi with ⟨a, b, c, d⟩
  cases b <;> rfl

theorem debug_state (mi : MessageInfo) (msg : String) :
    (mi.debug msg).info = mi := by
  rcases mi with ⟨a, b, c, d⟩
  cases b <;> rfl

theorem error_usage_state (mi : MessageInfo) (sup : Bool) (arg : String) :
    (mi.error_usage sup arg).info = mi := rfl

/-- An emission result that wrote no erase control sequence to either
stream. -/
def Emit.eraseFree (e : Emit) : Prop :=
  Chunk.erase ∉ e.out ∧ Chunk.erase ∉ e.err

theorem warn_eraseFree (mi : MessageInfo) (sup : Bool) (msg : String) :
    (mi.warn sup msg).eraseFree := by
  rcases mi with ⟨a, b, c, d⟩
  cases b <;>
    exact ⟨by simp [MessageInfo.warn], by
      simp only [MessageInfo.warn]
      first
        | simp
        | exact erase_not_mem_messageStatus _ _ _ _ _⟩

theorem note_eraseFree (mi : MessageInfo) (sup : Bool) (msg : String) :
    (mi.note sup msg).eraseFree := by
  rcases mi with ⟨a, b, c, d⟩
  cases b <;>
    exact ⟨by simp [MessageInfo.note], by
      simp only [MessageInfo.note]
      first
        | simp
        | exact erase_not_mem_messageStatus _ _ _ _ _⟩

theorem status_eraseFree (mi : MessageInfo) (msg : String) :
    (mi.status msg).eraseFree := by
  rcases mi with ⟨a, b, c, d⟩
  cases b <;> exact ⟨by simp [MessageInfo.status], by simp [MessageInfo.status]⟩

theorem info_eraseFree (mi : MessageInfo) (msg : String) :
    (mi.info msg).eraseFree := by
  rcases mi with ⟨a, b, c, d⟩
  cases b <;> exact ⟨by simp [MessageInfo.info], by simp [MessageInfo.info]⟩

theorem debug_eraseFree (mi : MessageInfo) (msg : String) :
    (mi.debug msg).eraseFree := by
  rcases mi with ⟨a, b, c, d⟩
  cases b <;> exact ⟨by simp [MessageInfo.debug], by simp [MessageInfo.debug]⟩

theorem error_usage_eraseFree (mi : MessageInfo) (sup : Bool)
    (arg : String) : (mi.error_usage sup arg).eraseFree := by
  exact ⟨by simp [MessageInfo.error_usage],
    by simp [MessageInfo.error_usage, erase_ne_writeStyle]⟩

theorem error_eraseFree_of_clear (mi : MessageInfo) (sup : Bool)
    (msg : String) (h : mi.stderr_needs_erase = false) :
    (mi.error sup msg).eraseFree := by
  rcases mi with ⟨a, b, c, d⟩
  cases d
  · exact ⟨by simp [MessageInfo.error], by
      simp only [MessageInfo.error, MessageInfo.stderr_check_erase]
      simp only [Bool.false_eq_true, if_false]
      simp only [List.nil_append]
      exact erase_not_mem_messageStatus _ _ _ _ _⟩
  · exact absurd h (by simp)

theorem print_eraseFree_of_clear (mi : MessageInfo) (msg : String)
    (h : mi.stdout_needs_erase = false) : (mi.print msg).eraseFree := by
  rcases mi with ⟨a, b, c, d⟩
  cases c
  · exact ⟨by
      simp only [MessageInfo.print, MessageInfo.stdout_check_erase]
      simp, by simp [MessageInfo.print]⟩
  · exact absurd h (by simp)

/-- Counterexample for C3: with the stderr erase flag set, `warn` at
`Normal` neither emits the erase sequence nor clears the flag — the
erase-before-write rule does not extend to `warn`. -/
theorem warn_skips_erase_counterexample :
    Chunk.erase ∉
      ((⟨.Never, .Normal, false, true⟩ : MessageInfo).warn false "x").err ∧
    ((⟨.Never, .Normal, false, true⟩ : MessageInfo).warn false
      "x").info.stderr_needs_erase = true := by
  constructor
  · simp [MessageInfo.warn, messageStatus, writeStyle, crossTag]
  · rfl

/-- C3 (amended): the erase-before-write rule holds exactly for the two
erase-checked methods: `error` on stderr and `print` on stdout emit the
erase sequence exactly once, before their own content, when their stream's
flag is set and clear it, and a consecutive second write emits no erase;
every other method (`warn`, `note`, `status`, `info`, `debug` and the
usage-error path) neither consults nor changes the flags and never emits
the erase sequence. -/
theorem erase_before_write_amended (cc : ColorChoice) (v : Verbosity)
    (e1 e2 sup : Bool) (msg : String) :
    ((⟨cc, v, e1, true⟩ : MessageInfo).error sup msg).err =
      Chunk.erase ::
        messageStatus cc sup (crossTag "error") (some msg) .red ∧
    ((⟨cc, v, e1, true⟩ : MessageInfo).error sup msg).info =
      ⟨cc, v, e1, false⟩ ∧
    ((⟨cc, v, e1, false⟩ : MessageInfo).error sup msg).err =
      messageStatus cc sup (crossTag "error") (some msg) .red ∧
    Chunk.erase ∉ ((⟨cc, v, e1, false⟩ : MessageInfo).error sup msg).err ∧
    ((⟨cc, v, true, e2⟩ : MessageInfo).print msg).out =
      [Chunk.erase, Chunk.text (msg ++ "\n")] ∧
    ((⟨cc, v, true, e2⟩ : MessageInfo).print msg).info =
      ⟨cc, v, false, e2⟩ ∧
    ((⟨cc, v, false, e2⟩ : MessageInfo).print msg).out =
      [Chunk.text (msg ++ "\n")] ∧
    Chunk.erase ∉ ((⟨cc, v, false, e2⟩ : MessageInfo).print msg).out ∧
    ((⟨cc, v, e1, e2⟩ : MessageInfo).warn sup msg).info =
      ⟨cc, v, e1, e2⟩ ∧
    ((⟨cc, v, e1, e2⟩ : MessageInfo).warn sup msg).eraseFree ∧
    ((⟨cc, v, e1, e2⟩ : MessageInfo).note sup msg).info =
      ⟨cc, v, e1, e2⟩ ∧
    ((⟨cc, v, e1, e2⟩ : MessageInfo).note sup msg).eraseFree ∧
    ((⟨cc, v, e1, e2⟩ : MessageInfo).status msg).info = ⟨cc, v, e1, e2⟩ ∧
    ((⟨cc, v, e1, e2⟩ : MessageInfo).status msg).eraseFree ∧
    ((⟨cc, v, e1, e2⟩ : MessageInfo).info msg).info = ⟨cc, v, e1, e2⟩ ∧
    ((⟨cc, v, e1, e2⟩ : MessageInfo).info msg).eraseFree ∧
    ((⟨cc, v, e1, e2⟩ : MessageInfo).debug msg).info = ⟨cc, v, e1, e2⟩ ∧
    ((⟨cc, v, e1, e2⟩ : MessageInfo).debug msg).eraseFree ∧
    ((⟨cc, v, e1, e2⟩ : MessageInfo).error_usage sup msg).info =
      ⟨cc, v, e1, e2⟩ ∧
    ((⟨cc, v, e1, e2⟩ : MessageInfo).error_usage sup msg).eraseFree :=
  ⟨rfl, rfl, rfl,
    erase_not_mem_messageStatus cc sup (crossTag "error") (some msg) .red,
    rfl, rfl, rfl,
    by simp [MessageInfo.print, MessageInfo.stdout_check_erase],
    warn_state _ sup msg, warn_eraseFree _ sup msg,
    note_state _ sup msg, note_eraseFree _ sup msg,
    status_state _ msg, status_eraseFree _ msg,
    info_state _ msg, info_eraseFree _ msg,
    debug_state _ msg, debug_eraseFree _ msg,
    error_usage_state _ sup msg, error_usage_eraseFree _ sup msg⟩

/-- C9: every construction of a reporter (`new`, a successful `create`, the
default, and the three `From` conversions) starts with both `needs_erase`
flags false; no emission method ever sets a flag (the API only clears
them); consequently a reporter whose flags are never set externally never
emits the erase sequence in any call. -/
theorem needs_erase_flags_invariant :
    (∀ (cc : ColorChoice) (v : Verbosity),
      (MessageInfo.new cc v).stdout_needs_erase = false ∧
      (MessageInfo.new cc v).stderr_needs_erase = false ∧
      MessageInfo.defaultInfo.stdout_needs_erase = false ∧
      MessageInfo.defaultInfo.stderr_needs_erase = false ∧
      (MessageInfo.fromColorChoice cc).stdout_needs_erase = false ∧
      (MessageInfo.fromColorChoice cc).stderr_needs_erase = false ∧
      (MessageInfo.fromVerbosity v).stdout_needs_erase = false ∧
      (MessageInfo.fromVerbosity v).stderr_needs_erase = false ∧
      (MessageInfo.fromPair (cc, v)).stdout_needs_erase = false ∧
      (MessageInfo.fromPair (cc, v)).stderr_needs_erase = false) ∧
    (∀ (sup vb q : Bool) (c : Option String) (mi : MessageInfo),
      MessageInfo.create sup vb q c = .ok mi →
        mi.stdout_needs_erase = false ∧ mi.stderr_needs_erase = false) ∧
    (∀ (mi : MessageInfo) (sup : Bool) (msg : String),
      (mi.error sup msg).info = { mi with stderr_needs_erase := false } ∧
      (mi.warn sup msg).info = mi ∧
      (mi.note sup msg).info = mi ∧
      (mi.status msg).info = mi ∧
      (mi.print msg).info = { mi with stdout_needs_erase := false } ∧
      (mi.info msg).info = mi ∧
      (mi.debug msg).info = mi ∧
      (mi.error_usage sup msg).info = mi) ∧
    (∀ (cc : ColorChoice) (v : Verbosity) (sup : Bool) (msg : String),
      ((⟨cc, v, false, false⟩ : MessageInfo).error sup msg).eraseFree ∧
      ((⟨cc, v, false, false⟩ : MessageInfo).warn sup msg).eraseFree ∧
      ((⟨cc, v, false, false⟩ : MessageInfo).note sup msg).eraseFree ∧
      ((⟨cc, v, false, false⟩ : MessageInfo).status msg).eraseFree ∧
      ((⟨cc, v, false, false⟩ : MessageInfo).print msg).eraseFree ∧
      ((⟨cc, v, false, false⟩ : MessageInfo).info msg).eraseFree ∧
      ((⟨cc, v, false, false⟩ : MessageInfo).debug msg).eraseFree ∧
      ((⟨cc, v, false, false⟩ : MessageInfo).error_usage sup
        msg).eraseFree) := by
  refine ⟨fun cc v => ⟨rfl, rfl, rfl, rfl, rfl, rfl, rfl, rfl, rfl, rfl⟩,
    ?_, ?_, ?_⟩
  · intro sup vb q c mi h
    unfold MessageInfo.create at h
    split at h
    · exact CreateResult.noConfusion h
    · split at h
      · exact CreateResult.noConfusion h
      · rw [CreateResult.ok.injEq] at h
        subst h
        exact ⟨rfl, rfl⟩
  · intro mi sup msg
    exact ⟨error_state mi sup msg, warn_state mi sup msg,
      note_state mi sup msg, status_state mi msg, print_state mi msg,
      info_state mi msg, debug_state mi msg, error_usage_state mi sup msg⟩
  · intro cc v sup msg
    exact ⟨error_eraseFree_of_clear _ sup msg rfl,
      warn_eraseFree _ sup msg, note_eraseFree _ sup msg,
      status_eraseFree _ msg, print_eraseFree_of_clear _ msg rfl,
      info_eraseFree _ msg, debug_eraseFree _ msg,
      error_usage_eraseFree _ sup msg⟩

/-- Witness for C9: a concrete successful `create` yields both flags
false. -/
theorem needs_erase_flags_invariant_witness :
    (⟨ColorChoice.Auto, Verbosity.Normal, false, false⟩ :
      MessageInfo).stdout_needs_erase = false ∧
    (⟨ColorChoice.Auto, Verbosity.Normal, false, false⟩ :
      MessageInfo).stderr_needs_erase = false :=
  needs_erase_flags_invariant.2.1 true false false none
    ⟨ColorChoice.Auto, Verbosity.Normal, false, false⟩ rfl

/-- C10: `indent` concatenates the input's lines, each prefixed with
`spaces` spaces, with no separator between lines: the output never contains
a newline character, so line breaks of a multi-line input are removed, not
preserved. -/
theorem indent_concats_without_newlines (message : String) (spaces : Nat) :
    (indent message spaces).data =
      ((splitIncl message.data).map
        (fun g => List.replicate spaces ' ' ++ stripLineEnding g)).flatten ∧
    '\n' ∉ (indent message spaces).data := by
  have hdata : (indent message spaces).data =
      ((splitIncl message.data).map
        (fun g => List.replicate spaces ' ' ++ stripLineEnding g)).flatten := by
    simp [indent, rustLines, data_stringJoin, List.map_map,
      data_stringAppend, data_mk, Function.comp_def]
  refine ⟨hdata, ?_⟩
  rw [hdata]
  intro hmem
  rw [List.mem_flatten] at hmem
  obtain ⟨l, hl, hc⟩ := hmem
  rw [List.mem_map] at hl
  obtain ⟨g, hg, rfl⟩ := hl
  rcases List.mem_append.mp hc with hm | hm
  · exact absurd (List.eq_of_mem_replicate hm) (by decide)
  · exact stripLineEnding_no_newline g
      (dropLast_groups_no_newline message.data g hg) hm
